import Mathlib

/-!
Shallow embedding of the event resolution and dispatch core of
`src/util-linux/acpid.c` (busybox acpid).

C strings are modelled as Lean `String`s, compared character-wise through
`String.toList`; C integers (`uint16_t`, `uint32_t`, `int`) are modelled as
`Nat` (no arithmetic is performed on them, only equality tests, so no
overflow can arise).  Filesystem and device effects (`open`, `stat`,
`read`) are modelled as explicit oracles passed to the corresponding
function.
-/

namespace Acpid

/-- One binary event record read from an evdev descriptor
(`struct input_event`: fields `type`, `code`, `value`; the `time` field is
never inspected by acpid and is omitted). -/
structure InputEvent where
  type : Nat
  code : Nat
  value : Nat
  deriving DecidableEq

/-- One row of the event table (`struct acpi_event` in acpid.c). -/
structure AcpiEvent where
  s_type : String
  n_type : Nat
  s_code : String
  n_code : Nat
  value : Nat
  desc : String
  deriving DecidableEq

/-- One row of the action table (`struct acpi_action` in acpid.c). -/
structure AcpiAction where
  key : String
  action : String
  deriving DecidableEq

/-- Built-in default event table `f_evt_tab` (acpid.c lines 56-59). -/
def f_evt_tab : List AcpiEvent :=
  [ ⟨"EV_KEY", 0x01, "KEY_POWER", 116, 1, "button/power PWRF 00000080"⟩,
    ⟨"EV_KEY", 0x01, "KEY_POWER", 116, 1, "button/power PWRB 00000080"⟩ ]

/-- Built-in default action table `f_act_tab` (acpid.c lines 66-69). -/
def f_act_tab : List AcpiAction :=
  [ ⟨"PWRF", "PWRF/00000080"⟩,
    ⟨"LID0", "LID/00000080"⟩ ]

/-- `strncmp(p, l, strlen(p)) == 0` on C strings: the first `p.length`
characters of `l` equal `p`.  If `l` is shorter than `p` the comparison
hits the terminating NUL of `l` against a non-NUL character of `p` and
fails, hence the `false` in the middle case. -/
def strncmpEq : List Char → List Char → Bool
  | [], _ => true
  | _ :: _, [] => false
  | a :: p, b :: l => a == b && strncmpEq p l

/-- `strstr(hay, needle) != NULL`: naive scan over every suffix of the
haystack, exactly the observable behaviour of C `strstr` used as a
boolean test (acpid.c line 146). -/
def strstrB : List Char → List Char → Bool
  | [], needle => strncmpEq needle []
  | c :: t, needle => strncmpEq needle (c :: t) || strstrB t needle

/-- Does the binary event `ev` exactly match table row `row`?
(acpid.c line 129: `ev->type == n_type && ev->code == n_code &&
ev->value == value`). -/
def evMatch (e : InputEvent) (row : AcpiEvent) : Bool :=
  e.type == row.n_type && e.code == row.n_code && e.value == row.value

/-- Does the textual buffer `buf` match table row `row`?
(acpid.c line 136: `strncmp(buf, evt_tab[i].desc, strlen(buf)) == 0`). -/
def bufMatch (buf : String) (row : AcpiEvent) : Bool :=
  strncmpEq buf.toList row.desc.toList

/-- Stage 1 of `find_action` (acpid.c lines 127-141): scan the event
table in order; at each row first try the binary match (when `ev` is
non-NULL), then the textual match (when `buf` is non-NULL); the first
hit returns that row's `desc`. -/
def mapEvent : List AcpiEvent → Option InputEvent → Option String → Option String
  | [], _, _ => none
  | row :: rest, ev, buf =>
    if (match ev with | some e => evMatch e row | none => false) then some row.desc
    else if (match buf with | some b => bufMatch b row | none => false) then some row.desc
    else mapEvent rest ev buf

/-- Stage 2 of `find_action` (acpid.c lines 144-151): scan the action
table in order; the first row whose `key` is a substring of `action`
replaces it; when no row matches, `action` passes through unchanged. -/
def getAction : List AcpiAction → String → String
  | [], action => action
  | row :: rest, action =>
    if strstrB action.toList row.key.toList then row.action
    else getAction rest action

/-- `find_action` (acpid.c lines 121-154).  The two tables are the
globals `evt_tab`/`act_tab`, made explicit parameters here; `ev` and
`buf` are its two (possibly NULL) arguments; `none` is C's NULL return. -/
def find_action (evt_tab : List AcpiEvent) (act_tab : List AcpiAction)
    (ev : Option InputEvent) (buf : Option String) : Option String :=
  match mapEvent evt_tab ev buf with
  | none => none
  | some action => some (getAction act_tab action)

/-- Per-row match predicate of stage 1, with the binary test taken
before the textual test exactly as in the loop body. -/
def rowMatch (ev : Option InputEvent) (buf : Option String) (row : AcpiEvent) : Bool :=
  (match ev with | some e => evMatch e row | none => false)
  || (match buf with | some b => bufMatch b row | none => false)

/-- Truncation of the textual buffer (acpid.c lines 287-289):
`len = strlen(buf) - 9; if (len >= 0) buf[len] = 0;` — with C `int`
arithmetic the truncation happens only when the buffer has at least 9
characters. -/
def stripBuf (buf : String) : String :=
  if 9 ≤ buf.length then ⟨buf.toList.take (buf.length - 9)⟩ else buf

/-- Outcome of handling one ready descriptor in the poll loop: either
the iteration `continue`s without dispatching, or `process_event` is
invoked with the resolved action. -/
inductive StepResult where
  | skipped : StepResult
  | dispatched : String → StepResult
  deriving DecidableEq

/-- Binary-mode body of the poll loop (acpid.c lines 291-303): a short
read (`none`) skips; a value other than 0 and 1 skips; a failed lookup
skips; otherwise `process_event` runs on the resolved action. -/
def binaryStep (evt_tab : List AcpiEvent) (act_tab : List AcpiAction)
    (readResult : Option InputEvent) : StepResult :=
  match readResult with
  | none => .skipped
  | some ev =>
    if ev.value != 1 && ev.value != 0 then .skipped
    else
      match find_action evt_tab act_tab (some ev) none with
      | none => .skipped
      | some a => .dispatched a

/-- Textual-mode body of the poll loop (acpid.c lines 281-303): read a
line, strip the trailing 9 characters, look it up; a failed lookup
skips, otherwise `process_event` runs on the resolved action. -/
def textualStep (evt_tab : List AcpiEvent) (act_tab : List AcpiAction)
    (buf : String) : StepResult :=
  match find_action evt_tab act_tab none (some (stripBuf buf)) with
  | none => .skipped
  | some a => .dispatched a

/-- `S_IFDIR` bit of `st_mode`. -/
def S_IFDIR : Nat := 0x4000

/-- What `process_event` does with the resolved action string. -/
inductive Dispatch where
  | spawnRunParts : String → Dispatch
  | spawnDirect : String → Dispatch
  | warn : String → Dispatch
  deriving DecidableEq

/-- `process_event` (acpid.c lines 98-119).  `statMode` is the `stat`
oracle: `some m` means `stat(event, &st)` returned 0 with
`st.st_mode = m`, `none` means it failed.  `handler = "./" + event`;
a directory bit selects `run-parts handler`, otherwise `handler` is
spawned directly; a failed stat only logs a warning naming the event.
The function always returns, so the poll loop continues in every case. -/
def process_event (statMode : String → Option Nat) (event : String) : Dispatch :=
  let handler := "./" ++ event
  match statMode event with
  | some mode =>
    if mode &&& S_IFDIR = 0 then .spawnDirect handler
    else .spawnRunParts handler
  | none => .warn event

/-- Path opened at iteration `nfd` of the source-opening loop
(acpid.c line 256): with `-e` the format is `"%s"` and the index is
ignored, otherwise `"%s%u"` appends the decimal index. -/
def sourcePath (opt_e : Bool) (opt_input : String) (nfd : Nat) : String :=
  if opt_e then opt_input else opt_input ++ Nat.repr nfd

/-- Result of the source-opening phase: `fatal` is
`bb_simple_perror_msg_and_die` at `nfd == 0`, `ok` carries the paths of
the descriptors handed to the poll loop, `pending` means the loop was
still running after the given fuel (it only stops when an open fails). -/
inductive OpenOutcome where
  | fatal : String → OpenOutcome
  | ok : List String → OpenOutcome
  | pending : List String → OpenOutcome
  deriving DecidableEq

/-- The source-opening loop (acpid.c lines 250-267).  `openOk n` is the
open oracle: whether the `n`-th call to `open` succeeds.  Fuel-indexed
because the C loop terminates only when an open fails. -/
def openLoop (opt_e : Bool) (opt_input : String) (openOk : Nat → Bool) :
    Nat → Nat → List String → OpenOutcome
  | 0, _, acc => .pending acc
  | fuel + 1, nfd, acc =>
    let p := sourcePath opt_e opt_input nfd
    if openOk nfd then openLoop opt_e opt_input openOk fuel (nfd + 1) (acc ++ [p])
    else if nfd = 0 then .fatal p
    else .ok acc

/-- The whole source-opening phase, started with `pfd = NULL; nfd = 0`. -/
def openSources (opt_e : Bool) (opt_input : String) (openOk : Nat → Bool)
    (fuel : Nat) : OpenOutcome :=
  openLoop opt_e opt_input openOk fuel 0 []

/-- Loop body of `parse_conf_file` (acpid.c lines 164-169): each record
of 2 tokens delivered by `config_read` appends one action row. -/
def parse_conf_lines : List (String × String) → List AcpiAction → List AcpiAction
  | [], act_tab => act_tab
  | t :: rest, act_tab => parse_conf_lines rest (act_tab ++ [⟨t.1, t.2⟩])

/-- `parse_conf_file` (acpid.c lines 156-175).  The tokenizer
`config_read` and the file open live in libbb; the file is modelled as
`none` (open failed) or `some recs` (the successive 2-token records).
On open failure the built-in `f_act_tab` is installed. -/
def parse_conf_file (file : Option (List (String × String))) : List AcpiAction :=
  match file with
  | some recs => parse_conf_lines recs []
  | none => f_act_tab

/-- Loop body of `parse_map_file` (acpid.c lines 185-194): each record
of 6 tokens (with the numeric fields already converted by the libbb
helpers `xstrtou`/`xatou16`/`xatoi_positive`) appends one event row. -/
def parse_map_lines : List AcpiEvent → List AcpiEvent → List AcpiEvent
  | [], evt_tab => evt_tab
  | r :: rest, evt_tab =>
    parse_map_lines rest (evt_tab ++ [⟨r.s_type, r.n_type, r.s_code, r.n_code, r.value, r.desc⟩])

/-- `parse_map_file` (acpid.c lines 177-200), modelled like
`parse_conf_file`; on open failure the built-in `f_evt_tab` is
installed. -/
def parse_map_file (file : Option (List AcpiEvent)) : List AcpiEvent :=
  match file with
  | some recs => parse_map_lines recs []
  | none => f_evt_tab

/-- `strncmpEq p l` holds exactly when the first `p.length` characters of
`l` are `p`. -/
theorem strncmpEq_iff_take (p l : List Char) :
    strncmpEq p l = true ↔ l.take p.length = p := by
  induction p generalizing l with
  | nil => simp [strncmpEq]
  | cons a s ih =>
    cases l with
    | nil => simp [strncmpEq]
    | cons b t =>
      simp only [strncmpEq, Bool.and_eq_true, beq_iff_eq, ih, List.length_cons,
        List.take_succ_cons, List.cons.injEq]
      constructor
      · rintro ⟨h1, h2⟩; exact ⟨h1.symm, h2⟩
      · rintro ⟨h1, h2⟩; exact ⟨h1.symm, h2⟩

/-- `strncmpEq p l` holds exactly when `p` is an initial segment of `l`. -/
theorem strncmpEq_iff_append (p l : List Char) :
    strncmpEq p l = true ↔ ∃ t, l = p ++ t := by
  rw [strncmpEq_iff_take]
  constructor
  · intro h
    refine ⟨l.drop p.length, ?_⟩
    nth_rewrite 1 [← List.take_append_drop p.length l]
    rw [h]
  · rintro ⟨t, rfl⟩
    simp

/-- `strstrB hay needle` holds exactly when `needle` occurs contiguously
inside `hay`. -/
theorem strstrB_iff (hay needle : List Char) :
    strstrB hay needle = true ↔ ∃ s t, hay = s ++ (needle ++ t) := by
  induction hay with
  | nil =>
    simp only [strstrB, strncmpEq_iff_append]
    constructor
    · rintro ⟨t, ht⟩
      exact ⟨[], t, by simpa using ht⟩
    · rintro ⟨s, t, h⟩
      rcases List.append_eq_nil.mp h.symm with ⟨hs, h2⟩
      exact ⟨t, h2.symm⟩
  | cons c rest ih =>
    simp only [strstrB, Bool.or_eq_true, strncmpEq_iff_append, ih]
    constructor
    · rintro (⟨u, hu⟩ | ⟨s, u, hu⟩)
      · exact ⟨[], u, by simpa using hu⟩
      · exact ⟨c :: s, u, by simp [hu]⟩
    · rintro ⟨s, u, h⟩
      cases s with
      | nil => exact Or.inl ⟨u, by simpa using h⟩
      | cons x s2 =>
        right
        injection h with h1 h2
        exact ⟨s2, u, h2⟩

/-- Stage 1 is `List.find?` of the per-row match predicate, projected to
the row's `desc`. -/
theorem mapEvent_eq_find (t : List AcpiEvent) (ev : Option InputEvent) (buf : Option String) :
    mapEvent t ev buf = (t.find? (rowMatch ev buf)).map AcpiEvent.desc := by
  induction t with
  | nil => rfl
  | cons row rest ih =>
    cases hev : (match ev with | some e => evMatch e row | none => false) with
    | true => simp [mapEvent, rowMatch, hev, List.find?]
    | false =>
      cases hbuf : (match buf with | some b => bufMatch b row | none => false) with
      | true => simp [mapEvent, rowMatch, hev, hbuf, List.find?]
      | false => simp [mapEvent, rowMatch, hev, hbuf, List.find?, ih]

/-- Stage 2 is `List.find?` of the substring test, projected to the
row's `action`, defaulting to the unchanged input. -/
theorem getAction_eq_find (t : List AcpiAction) (a : String) :
    getAction t a
      = ((t.find? fun r => strstrB a.toList r.key.toList).map AcpiAction.action).getD a := by
  induction t with
  | nil => rfl
  | cons row rest ih =>
    cases h : strstrB a.toList row.key.toList with
    | true =>
      simp only [String.toList] at h
      simp [getAction, h, List.find?]
    | false =>
      simp only [String.toList] at h
      simp [getAction, h, List.find?, ih]

/-- A stage-1 result is always the `desc` field of some table row. -/
theorem mapEvent_mem (t : List AcpiEvent) (ev : Option InputEvent) (buf : Option String)
    (d : String) (h : mapEvent t ev buf = some d) : ∃ r ∈ t, d = r.desc := by
  rw [mapEvent_eq_find] at h
  cases hf : t.find? (rowMatch ev buf) with
  | none => rw [hf] at h; exact absurd h (by simp)
  | some r =>
    rw [hf] at h
    injection h with h
    exact ⟨r, List.mem_of_find?_eq_some hf, h.symm⟩

/-- A stage-2 result is either the unchanged input or the `action` field
of some table row. -/
theorem getAction_mem (t : List AcpiAction) (a : String) :
    getAction t a = a ∨ ∃ r ∈ t, getAction t a = r.action := by
  rw [getAction_eq_find]
  cases hf : t.find? (fun r => strstrB a.toList r.key.toList) with
  | none => exact Or.inl rfl
  | some r => exact Or.inr ⟨r, List.mem_of_find?_eq_some hf, rfl⟩

/-- Each 2-token action record appends exactly one row. -/
theorem parse_conf_lines_length (recs : List (String × String)) :
    ∀ acc, (parse_conf_lines recs acc).length = acc.length + recs.length := by
  induction recs with
  | nil => intro acc; simp [parse_conf_lines]
  | cons t rest ih =>
    intro acc
    rw [parse_conf_lines, ih]
    simp
    omega

/-- Each 6-token map record appends exactly one row. -/
theorem parse_map_lines_length (recs : List AcpiEvent) :
    ∀ acc, (parse_map_lines recs acc).length = acc.length + recs.length := by
  induction recs with
  | nil => intro acc; simp [parse_map_lines]
  | cons r rest ih =>
    intro acc
    rw [parse_map_lines, ih]
    simp
    omega

/-- When the open oracle succeeds exactly on the first `k` calls, the
`-e`-mode opening loop hands the poll loop `k` descriptors, all for the
same fixed path. -/
theorem openLoop_count (input : String) (openOk : Nat → Bool) (k : Nat)
    (hok : ∀ n, openOk n = decide (n < k)) (hk : 0 < k) :
    ∀ fuel nfd acc, nfd ≤ k → k - nfd < fuel →
      openLoop true input openOk fuel nfd acc
        = .ok (acc ++ List.replicate (k - nfd) input) := by
  intro fuel
  induction fuel with
  | zero => intro nfd acc h1 h2; omega
  | succ f ih =>
    intro nfd acc hle hf
    rcases Nat.lt_or_ge nfd k with hlt | hge
    · have hop : openOk nfd = true := by rw [hok]; simp [hlt]
      rw [openLoop]
      simp only [hop, if_true]
      rw [ih (nfd + 1) (acc ++ [sourcePath true input nfd]) (by omega) (by omega)]
      have hrep : k - nfd = (k - (nfd + 1)) + 1 := by omega
      rw [hrep]
      simp [sourcePath, List.replicate_succ, List.append_assoc]
    · have heq : nfd = k := by omega
      subst heq
      have hop : openOk nfd = false := by rw [hok]; simp
      rw [openLoop]
      simp only [hop, Bool.false_eq_true, if_false]
      rw [if_neg (by omega)]
      simp

example : find_action f_evt_tab f_act_tab (some ⟨1, 116, 1⟩) none = some "PWRF/00000080" := by
  decide

example : stripBuf "button/power PWRB 00000080 00000000" = "button/power PWRB 00000080" := by
  decide

example : ("button/power PWRB 00000080 00000000" : String).length = 35 := by decide

example :
    textualStep f_evt_tab f_act_tab "button/power PWRB 00000080 00000000"
      = .dispatched "button/power PWRB 00000080" := by
  decide

/-- Claim C2: both lookup stages are first-match-in-order.  Stage 1
returns the `desc` of the *first* event-table row matching the input
(`List.find?` is first-match by definition), and stage 2 returns the
`action` of the *first* action-table row whose key is a substring of the
stage-1 result (defaulting to the unchanged input); hence whenever two
rows of the same table match the same input, the earlier row's result is
the one used, and earlier rows shadow later ones. -/
theorem C2_first_match_in_order :
    (∀ (evt_tab : List AcpiEvent) (ev : Option InputEvent) (buf : Option String),
      mapEvent evt_tab ev buf = (evt_tab.find? (rowMatch ev buf)).map AcpiEvent.desc)
    ∧ (∀ (act_tab : List AcpiAction) (a : String),
      getAction act_tab a
        = ((act_tab.find? fun r => strstrB a.toList r.key.toList).map
            AcpiAction.action).getD a) :=
  ⟨mapEvent_eq_find, getAction_eq_find⟩

/-- Claim C3: a binary triple that exactly equals no event-table row
resolves to nothing: `find_action` returns NULL, so the poll-loop body
`continue`s and `process_event` is never invoked for that event. -/
theorem C3_unmatched_binary_dropped (evt_tab : List AcpiEvent) (act_tab : List AcpiAction)
    (ev : InputEvent)
    (h : ∀ r ∈ evt_tab, ¬(ev.type = r.n_type ∧ ev.code = r.n_code ∧ ev.value = r.value)) :
    find_action evt_tab act_tab (some ev) none = none
    ∧ binaryStep evt_tab act_tab (some ev) = .skipped := by
  have hfind : evt_tab.find? (rowMatch (some ev) none) = none := by
    rw [List.find?_eq_none]
    intro r hr
    have hne := h r hr
    simp only [rowMatch, evMatch, Bool.or_eq_true, Bool.and_eq_true, beq_iff_eq]
    rintro (⟨⟨h1, h2⟩, h3⟩ | hfalse)
    · exact hne ⟨h1, h2, h3⟩
    · exact Bool.false_ne_true hfalse
  have hm : mapEvent evt_tab (some ev) none = none := by
    rw [mapEvent_eq_find, hfind]; rfl
  refine ⟨by rw [find_action, hm], ?_⟩
  rw [binaryStep]
  split
  · rfl
  · rw [find_action, hm]

/-- Claim C4: stage 2 of resolution: the final action is the `action`
of the first action-table row whose `key` occurs as a substring of the
stage-1 description; when no row's key is a substring the description
passes through unchanged; and a stage-1 success is never dropped at
stage 2 (`find_action` then returns `some` of the stage-2 result). -/
theorem C4_stage2_substitution :
    (∀ (act_tab : List AcpiAction) (a : String),
      (∀ r ∈ act_tab, ¬∃ s t, a.toList = s ++ (r.key.toList ++ t)) →
      getAction act_tab a = a)
    ∧ (∀ (t1 : List AcpiAction) (r : AcpiAction) (t2 : List AcpiAction) (a : String),
      (∀ r2 ∈ t1, ¬∃ s t, a.toList = s ++ (r2.key.toList ++ t)) →
      (∃ s t, a.toList = s ++ (r.key.toList ++ t)) →
      getAction (t1 ++ r :: t2) a = r.action)
    ∧ (∀ (evt_tab : List AcpiEvent) (act_tab : List AcpiAction)
        (ev : Option InputEvent) (buf : Option String) (a : String),
      mapEvent evt_tab ev buf = some a →
      find_action evt_tab act_tab ev buf = some (getAction act_tab a)) := by
  refine ⟨?_, ?_, ?_⟩
  · intro act_tab a h
    induction act_tab with
    | nil => rfl
    | cons row rest ih =>
      cases hsb : strstrB a.toList row.key.toList with
      | true => exact absurd ((strstrB_iff _ _).mp hsb) (h row (by simp))
      | false =>
        rw [getAction]
        rw [if_neg (by simp only [hsb]; exact Bool.false_ne_true)]
        exact ih fun r hr => h r (by simp [hr])
  · intro t1 r t2 a h hsub
    induction t1 with
    | nil =>
      rw [List.nil_append, getAction]
      rw [if_pos ((strstrB_iff _ _).mpr hsub)]
    | cons row rest ih =>
      have hsb : strstrB a.toList row.key.toList = false := by
        cases hsb : strstrB a.toList row.key.toList with
        | true => exact absurd ((strstrB_iff _ _).mp hsb) (h row (by simp))
        | false => rfl
      rw [List.cons_append, getAction]
      rw [if_neg (by simp only [hsb]; exact Bool.false_ne_true)]
      exact ih fun r2 hr2 => h r2 (by simp [hr2])
  · intro evt_tab act_tab ev buf a h
    rw [find_action, h]

/-- Claim C5: a binary event record whose `value` is neither 0 nor 1 is
filtered by the `continue` before `find_action` is ever called: the
poll-loop body skips it whatever the two tables contain, so neither
lookup stage is consulted and `process_event` is never invoked. -/
theorem C5_value_prefilter (evt_tab : List AcpiEvent) (act_tab : List AcpiAction)
    (ev : InputEvent) (h0 : ev.value ≠ 0) (h1 : ev.value ≠ 1) :
    binaryStep evt_tab act_tab (some ev) = .skipped := by
  have hb : (ev.value != 1 && ev.value != 0) = true := by
    simp only [Bool.and_eq_true, bne_iff_ne]
    exact ⟨h1, h0⟩
  rw [binaryStep]
  rw [if_pos hb]

/-- Claim C1 counterexample: with `-e` set and an open oracle under
which the fixed path opens successfully twice before a call fails, the
startup source-opening loop is entered repeatedly (it is not bypassed)
and hands the poll loop a descriptor list of length 2, not 1. -/
theorem C1_counterexample :
    openSources true "/proc/acpi/event" (fun n => decide (n < 2)) 10
      = OpenOutcome.ok ["/proc/acpi/event", "/proc/acpi/event"]
    ∧ (["/proc/acpi/event", "/proc/acpi/event"] : List String).length = 2 :=
  ⟨rfl, rfl⟩

/-- Claim C1 (amended): with `-e`, the opening loop is still the one
probing loop, but every iteration opens the same fixed path (the index
is ignored by the `"%s"` format); failure of the very first open is
fatal; and the descriptor list entering the poll loop holds one entry
per consecutive successful open of that path — so it has length 1
exactly when the first open succeeds and the second fails. -/
theorem C1_textual_source_opening :
    (∀ (input : String) (n : Nat), sourcePath true input n = input)
    ∧ (∀ (input : String) (openOk : Nat → Bool) (fuel : Nat), openOk 0 = false →
        openSources true input openOk (fuel + 1) = .fatal input)
    ∧ (∀ (input : String) (openOk : Nat → Bool) (k fuel : Nat),
        (∀ n, openOk n = decide (n < k)) → 0 < k → k < fuel →
        openSources true input openOk fuel = .ok (List.replicate k input)) := by
  refine ⟨fun _ _ => rfl, ?_, ?_⟩
  · intro input openOk fuel h
    rw [openSources, openLoop]
    simp [h, sourcePath]
  · intro input openOk k fuel hok hk hf
    have := openLoop_count input openOk k hok hk fuel 0 [] (by omega) (by omega)
    simpa [openSources] using this

/-- Claim C1 witness: the amended statement at concrete inputs — the
path at index 5 is still the fixed path; an oracle failing at call 0 is
fatal; an oracle succeeding on calls 0 and 1 and failing on call 2
yields a 2-element descriptor list. -/
theorem C1_witness :
    sourcePath true "/proc/acpi/event" 5 = "/proc/acpi/event"
    ∧ openSources true "/proc/acpi/event" (fun _ => false) 1
        = OpenOutcome.fatal "/proc/acpi/event"
    ∧ openSources true "/proc/acpi/event" (fun n => decide (n < 2)) 3
        = OpenOutcome.ok (List.replicate 2 "/proc/acpi/event") :=
  ⟨C1_textual_source_opening.1 "/proc/acpi/event" 5,
   C1_textual_source_opening.2.1 "/proc/acpi/event" (fun _ => false) 0 rfl,
   C1_textual_source_opening.2.2 "/proc/acpi/event" (fun n => decide (n < 2)) 2 3
     (fun _ => rfl) (by decide) (by decide)⟩

/-- Claim C3 witness: the triple (2, 5, 1) matches no row of the
built-in event table, so resolution is empty and the step dispatches
nothing. -/
theorem C3_witness :
    find_action f_evt_tab f_act_tab (some ⟨2, 5, 1⟩) none = none
    ∧ binaryStep f_evt_tab f_act_tab (some ⟨2, 5, 1⟩) = .skipped :=
  C3_unmatched_binary_dropped f_evt_tab f_act_tab ⟨2, 5, 1⟩ (by decide)

/-- Claim C4 witness: "button/power PWRB 00000080" contains no key of
the built-in action table and passes through unchanged; "button/power
PWRF 00000080" contains the key of the first row of the built-in action
table and is replaced by that row's action; a stage-1 success always
yields a stage-2 result. -/
theorem C4_witness :
    getAction f_act_tab "button/power PWRB 00000080" = "button/power PWRB 00000080"
    ∧ getAction ([] ++ AcpiAction.mk "PWRF" "PWRF/00000080" ::
        [AcpiAction.mk "LID0" "LID/00000080"]) "button/power PWRF 00000080"
        = "PWRF/00000080"
    ∧ find_action f_evt_tab f_act_tab (some ⟨1, 116, 1⟩) none
        = some (getAction f_act_tab "button/power PWRF 00000080") := by
  refine ⟨?_, ?_, ?_⟩
  · refine C4_stage2_substitution.1 f_act_tab "button/power PWRB 00000080" ?_
    intro r hr hex
    have hsb := (strstrB_iff _ _).mpr hex
    fin_cases hr <;> revert hsb <;> decide
  · refine C4_stage2_substitution.2.1 [] ⟨"PWRF", "PWRF/00000080"⟩
      [⟨"LID0", "LID/00000080"⟩] "button/power PWRF 00000080" ?_ ?_
    · intro r hr; exact absurd hr (List.not_mem_nil r)
    · exact ⟨"button/power ".toList, " 00000080".toList, by decide⟩
  · exact C4_stage2_substitution.2.2 f_evt_tab f_act_tab (some ⟨1, 116, 1⟩) none
      "button/power PWRF 00000080" (by decide)

/-- Claim C5 witness: a key-repeat record (value 2) matching the first
default row on type and code is still skipped. -/
theorem C5_witness : binaryStep f_evt_tab f_act_tab (some ⟨1, 116, 2⟩) = .skipped :=
  C5_value_prefilter f_evt_tab f_act_tab ⟨1, 116, 2⟩ (by decide) (by decide)

/-- Claim C6: when the action file cannot be opened the active action
table is exactly the 2 built-in rows PWRF→"PWRF/00000080" and
LID0→"LID/00000080"; when the map file cannot be opened the active
event table is exactly the 2 built-in rows; and when a file opens, each
valid config record appends exactly one row. -/
theorem C6_config_fallback :
    parse_conf_file none = f_act_tab
    ∧ f_act_tab = [⟨"PWRF", "PWRF/00000080"⟩, ⟨"LID0", "LID/00000080"⟩]
    ∧ f_act_tab.length = 2
    ∧ parse_map_file none = f_evt_tab
    ∧ f_evt_tab.length = 2
    ∧ (∀ recs : List (String × String),
        (parse_conf_file (some recs)).length = recs.length)
    ∧ (∀ recs : List AcpiEvent,
        (parse_map_file (some recs)).length = recs.length) := by
  refine ⟨rfl, rfl, rfl, rfl, rfl, ?_, ?_⟩
  · intro recs
    rw [parse_conf_file]
    rw [parse_conf_lines_length recs []]
    simp
  · intro recs
    rw [parse_map_file]
    rw [parse_map_lines_length recs []]
    simp

/-- Claim C7 counterexample: the documented textual buffer has 35
characters, not 36, and stripping the trailing 9 leaves a 26-character
prefix, not 27. -/
theorem C7_counterexample :
    ("button/power PWRB 00000080 00000000" : String).length = 35
    ∧ (stripBuf "button/power PWRB 00000080 00000000").length = 26
    ∧ ¬(("button/power PWRB 00000080 00000000" : String).length = 36
        ∧ (stripBuf "button/power PWRB 00000080 00000000").length = 27) := by
  decide

/-- Claim C7 (amended): the buffer "button/power PWRB 00000080
00000000" is 35 characters long; stripping the trailing 9 characters
leaves the 26-character prefix "button/power PWRB 00000080"; and a
table row matches exactly when its description agrees with that
stripped buffer over the stripped buffer's full length. -/
theorem C7_textual_stripping :
    ("button/power PWRB 00000080 00000000" : String).length = 35
    ∧ stripBuf "button/power PWRB 00000080 00000000" = "button/power PWRB 00000080"
    ∧ (stripBuf "button/power PWRB 00000080 00000000").length = 26
    ∧ ∀ row : AcpiEvent,
        bufMatch (stripBuf "button/power PWRB 00000080 00000000") row = true
          ↔ row.desc.toList.take 26
              = (stripBuf "button/power PWRB 00000080 00000000").toList := by
  refine ⟨by decide, by decide, by decide, ?_⟩
  intro row
  have h26 : (stripBuf "button/power PWRB 00000080 00000000").toList.length = 26 := by
    decide
  rw [bufMatch, strncmpEq_iff_take, h26]

/-- Claim C8: dispatch trichotomy on the stat outcome: a successful
stat with the directory bit set runs the batch runner on the handler
path; a successful stat without it executes the handler directly; a
failed stat only logs a warning naming the action and spawns nothing.
`process_event` returns in every case, so the poll loop continues. -/
theorem C8_dispatch_trichotomy (statMode : String → Option Nat) (event : String) :
    (∀ m, statMode event = some m → m &&& S_IFDIR ≠ 0 →
        process_event statMode event = .spawnRunParts ("./" ++ event))
    ∧ (∀ m, statMode event = some m → m &&& S_IFDIR = 0 →
        process_event statMode event = .spawnDirect ("./" ++ event))
    ∧ (statMode event = none → process_event statMode event = .warn event) := by
  refine ⟨?_, ?_, ?_⟩
  · intro m hm hne
    rw [process_event, hm]
    simp [hne]
  · intro m hm hz
    rw [process_event, hm]
    simp [hz]
  · intro hm
    rw [process_event, hm]

/-- Claim C8 witness: mode 0x41ED (a directory) selects run-parts, mode
0x81ED (a regular file) selects direct execution, and a failed stat
yields only the warning. -/
theorem C8_witness :
    process_event (fun _ => some 0x41ED) "PWRF/00000080"
      = .spawnRunParts "./PWRF/00000080"
    ∧ process_event (fun _ => some 0x81ED) "PWRF/00000080"
      = .spawnDirect "./PWRF/00000080"
    ∧ process_event (fun _ => none) "PWRF/00000080" = .warn "PWRF/00000080" :=
  ⟨(C8_dispatch_trichotomy (fun _ => some 0x41ED) "PWRF/00000080").1 0x41ED rfl (by decide),
   (C8_dispatch_trichotomy (fun _ => some 0x81ED) "PWRF/00000080").2.1 0x81ED rfl (by decide),
   (C8_dispatch_trichotomy (fun _ => none) "PWRF/00000080").2.2 rfl⟩

/-- Claim C9: a textual line of exactly 9 characters strips to the
empty buffer, and the empty-buffer comparison matches every
description, so against any non-empty event table such a line passes
stage 1 via the first row and is dispatched, never dropped. -/
theorem C9_nine_char_line (r : AcpiEvent) (rest : List AcpiEvent)
    (act_tab : List AcpiAction) (buf : String) (h : buf.length = 9) :
    mapEvent (r :: rest) none (some (stripBuf buf)) = some r.desc
    ∧ find_action (r :: rest) act_tab none (some (stripBuf buf))
        = some (getAction act_tab r.desc)
    ∧ textualStep (r :: rest) act_tab buf = .dispatched (getAction act_tab r.desc) := by
  have hnil : (stripBuf buf).toList = [] := by
    rw [stripBuf, if_pos (by omega)]
    simp [String.toList, h]
  have hmatch : bufMatch (stripBuf buf) r = true := by
    rw [bufMatch, hnil]
    rfl
  have hmap : mapEvent (r :: rest) none (some (stripBuf buf)) = some r.desc := by
    rw [mapEvent_eq_find]
    have : rowMatch none (some (stripBuf buf)) r = true := by
      rw [rowMatch]
      simp [hmatch]
    rw [List.find?_cons_of_pos _ this]
    rfl
  have hfa : find_action (r :: rest) act_tab none (some (stripBuf buf))
      = some (getAction act_tab r.desc) := by
    rw [find_action, hmap]
  exact ⟨hmap, hfa, by rw [textualStep, hfa]⟩

/-- Claim C9 witness: the 9-character line "012345678" against the
built-in tables resolves via the first default row. -/
theorem C9_witness :
    mapEvent (AcpiEvent.mk "EV_KEY" 1 "KEY_POWER" 116 1 "button/power PWRF 00000080" ::
        [AcpiEvent.mk "EV_KEY" 1 "KEY_POWER" 116 1 "button/power PWRB 00000080"]) none
      (some (stripBuf "012345678")) = some "button/power PWRF 00000080"
    ∧ find_action (AcpiEvent.mk "EV_KEY" 1 "KEY_POWER" 116 1 "button/power PWRF 00000080" ::
        [AcpiEvent.mk "EV_KEY" 1 "KEY_POWER" 116 1 "button/power PWRB 00000080"]) f_act_tab
        none (some (stripBuf "012345678"))
        = some (getAction f_act_tab "button/power PWRF 00000080")
    ∧ textualStep (AcpiEvent.mk "EV_KEY" 1 "KEY_POWER" 116 1 "button/power PWRF 00000080" ::
        [AcpiEvent.mk "EV_KEY" 1 "KEY_POWER" 116 1 "button/power PWRB 00000080"]) f_act_tab
        "012345678"
        = .dispatched (getAction f_act_tab "button/power PWRF 00000080") :=
  C9_nine_char_line ⟨"EV_KEY", 1, "KEY_POWER", 116, 1, "button/power PWRF 00000080"⟩
    [⟨"EV_KEY", 1, "KEY_POWER", 116, 1, "button/power PWRB 00000080"⟩]
    f_act_tab "012345678" (by decide)

/-- Claim C10: codomain invariant of resolution: whenever `find_action`
returns an action, that string is the `desc` field of some event-table
row or the `action` field of some action-table row; no other string is
ever produced. -/
theorem C10_codomain (evt_tab : List AcpiEvent) (act_tab : List AcpiAction)
    (ev : Option InputEvent) (buf : Option String) (a : String)
    (h : find_action evt_tab act_tab ev buf = some a) :
    (∃ r ∈ evt_tab, a = r.desc) ∨ (∃ r ∈ act_tab, a = r.action) := by
  rw [find_action] at h
  cases hm : mapEvent evt_tab ev buf with
  | none => rw [hm] at h; exact absurd h (by simp)
  | some d =>
    rw [hm] at h
    injection h with h
    rcases getAction_mem act_tab d with hg | ⟨r, hr, hg⟩
    · obtain ⟨r, hr, hd⟩ := mapEvent_mem evt_tab ev buf d hm
      exact Or.inl ⟨r, hr, by rw [← h, hg]; exact hd⟩
    · exact Or.inr ⟨r, hr, by rw [← h, hg]⟩

/-- Claim C10 witness: the resolved action for the default power-button
triple is the `action` field of a row of the built-in action table. -/
theorem C10_witness :
    (∃ r ∈ f_evt_tab, "PWRF/00000080" = r.desc)
    ∨ (∃ r ∈ f_act_tab, "PWRF/00000080" = r.action) :=
  C10_codomain f_evt_tab f_act_tab (some ⟨1, 116, 1⟩) none "PWRF/00000080" (by decide)

end Acpid
